import Mathlib

/-!
Verification of the `create-react-tailwind-app-router` scaffolding CLI
(the commander-based action handler in the package's v3 binary).

The embedding translates the CLI's pure decision logic into Lean:
strings stay `String`, the filesystem and child processes are an explicit
environment record, the `try`/`catch` + `process.exit` control flow becomes
early returns producing an `Outcome` record that collects the exit code,
the console messages, and every mutation the run performed.
-/

namespace CreateApp

/-! ## Strings: JS `String.prototype.includes` and `trim` -/

/-- JS `pat` occurs in `s` as a contiguous character sequence:
checks `pat.isPrefixOf` at every suffix of `s` (model of `relativePath.includes(pat)`). -/
def listContainsSeq (pat : List Char) : List Char → Bool
  | [] => pat.isEmpty
  | c :: rest => pat.isPrefixOf (c :: rest) || listContainsSeq pat rest

/-- Model of JS `s.includes(pat)`: substring containment. -/
def strContains (s pat : String) : Bool :=
  listContainsSeq pat.data s.data

/-- Model of JS `input.trim()`: strip whitespace from both ends. -/
def jsTrim (s : String) : String :=
  String.mk (((s.data.dropWhile Char.isWhitespace).reverse.dropWhile Char.isWhitespace).reverse)

/-! ## The template tree and the `fs.copy` filter -/

/-- One file of a template tree: its relative path as segments, and its contents. -/
structure FileEntry where
  path : List String
  content : String
deriving DecidableEq

/-- The relative path string corresponding to a segment list
(what `path.relative(templateDir, src)` yields, `/`-joined). -/
def relPath : List String → String
  | [] => ""
  | [seg] => seg
  | seg :: rest => seg ++ "/" ++ relPath rest

/-- The filter predicate passed to `fs.copy`, verbatim from the source:
`!relativePath.includes('node_modules') && !relativePath.includes('.git') && !relativePath.includes('dist')`. -/
def copyFilter (relativePath : String) : Bool :=
  !(strContains relativePath "node_modules") &&
  !(strContains relativePath ".git") &&
  !(strContains relativePath "dist")

/-- All nonempty path-level truncations of a segment list, shortest first.
`fs.copy` calls the filter on every directory it walks into and on the file itself;
these are exactly the relative paths it consults for one file. -/
def nonemptyLevels : List String → List (List String)
  | [] => []
  | seg :: rest => [seg] :: (nonemptyLevels rest).map (fun p => seg :: p)

/-- A file survives the walk iff the filter accepts the relative path of
every level: a rejected directory is never descended into. -/
def copyIncludes (f : FileEntry) : Bool :=
  (nonemptyLevels f.path).all (fun p => copyFilter (relPath p))

/-- The result of `fs.copy(templateDir, targetDir, { filter })`:
the files of the template tree surviving the filtered walk. -/
def scaffoldCopy (tpl : List FileEntry) : List FileEntry :=
  tpl.filter copyIncludes

/-- The directory names the spec declares excluded. -/
def excludedDirNames : List String := ["node_modules", ".git", "dist"]

/-- Follows the spec's words, for comparison with `copyFilter`: exclusion by
path-segment equality against the fixed list of directory names. -/
def specSegmentExcluded (path : List String) : Bool :=
  path.any (fun seg => excludedDirNames.contains seg)

/-! ## Project-name validation -/

/-- Character class of the regex `/^[a-zA-Z0-9-_]+$/`. -/
def isNameChar (c : Char) : Bool :=
  ('a' ≤ c && c ≤ 'z') || ('A' ≤ c && c ≤ 'Z') || ('0' ≤ c && c ≤ '9') || c == '-' || c == '_'

/-- Model of `/^[a-zA-Z0-9-_]+$/.test(s)`: at least one character, all from the class. -/
def nameRegexMatch (s : String) : Bool :=
  !(s == "") && s.data.all isNameChar

/-- The inquirer prompt's `validate` callback: trims the input, rejects the empty
trimmed string, then tests the trimmed string against the regex.
Returns `true` exactly when the callback returns the literal `true`
(an error-message string counts as rejection; inquirer then re-prompts). -/
def promptValidate (input : String) : Bool :=
  let trimmed := jsTrim input
  if trimmed == "" then false
  else if !nameRegexMatch trimmed then false
  else true

/-! ## Template catalog and flag resolution -/

/-- One entry of the `templates` object. -/
structure TemplateInfo where
  name : String
  description : String
  folder : String
deriving DecidableEq

/-- The `templates` object, verbatim. -/
def templates : List (String × TemplateInfo) :=
  [("jsx-basic",
    ⟨"JavaScript (JSX) Basic",
     "Basic React with JavaScript and JSX - minimal setup",
     "template-jsx-basic"⟩),
   ("javascript",
    ⟨"JavaScript (JSX)",
     "React with JavaScript, comprehensive UI components, and educational documentation",
     "template-jsx"⟩),
   ("typescript",
    ⟨"TypeScript (TSX)",
     "React with TypeScript, type safety, comprehensive UI components, and educational documentation",
     "template-tsx"⟩)]

/-- JS property access `templates[key]` (`none` models `undefined`). -/
def lookupTemplate (key : String) : Option TemplateInfo :=
  (templates.find? (fun p => p.1 == key)).map (fun p => p.2)

/-- The commander options object for one invocation (`none` models an absent flag). -/
structure Options where
  template : Option String
  typescript : Bool
  js : Bool
  basic : Bool
  yes : Bool
  install : Bool
  git : Bool
deriving DecidableEq

/-- JS falsiness of a `string | undefined` value: `undefined` or the empty string. -/
def strFalsy : Option String → Bool
  | none => true
  | some s => s == ""

/-- Step 2's flag resolution, verbatim:
`let selectedTemplate = options.template;` then each shorthand flag
overwrites it, first match wins (`--typescript`, else `--js`, else `--basic`). -/
def resolveTemplateFlags (o : Options) : Option String :=
  let selectedTemplate := o.template
  if o.typescript then some "typescript"
  else if o.js then some "javascript"
  else if o.basic then some "jsx-basic"
  else selectedTemplate

/-! ## The manifest (`package.json`) -/

/-- A JSON value, as `fs.readJson` produces it. -/
inductive Jval where
  | str : String → Jval
  | num : Int → Jval
  | truth : Bool → Jval
  | null : Jval
  | arr : List Jval → Jval
  | obj : List (String × Jval) → Jval

/-- A top-level JSON object: ordered fields. -/
abbrev PkgObj := List (String × Jval)

/-- JS property lookup on an object. -/
def jlookup (o : PkgObj) (key : String) : Option Jval :=
  (o.find? (fun p => p.1 == key)).map (fun p => p.2)

/-- JS property assignment `obj[key] = v`: updates the field in place when
present (preserving insertion order), appends it otherwise. -/
def setField (o : PkgObj) (key : String) (v : Jval) : PkgObj :=
  if o.any (fun p => p.1 == key) then
    o.map (fun p => if p.1 == key then (key, v) else p)
  else
    o ++ [(key, v)]

/-! ## Environment and outcome of one invocation -/

/-- Answers the interactive prompts would produce, passed in so the handler is a
function; inquirer only ever yields a name answer its `validate` accepted. -/
structure PromptAnswers where
  projectName : String
  template : String
  install : Bool
  git : Bool
deriving DecidableEq

/-- The world the handler touches: the filesystem and the child processes.
Template data is indexed by the template folder name. -/
structure Env where
  targetExists : Bool
  templateExists : String → Bool
  templateFiles : String → List FileEntry
  templatePkgJson : String → Option PkgObj
  npmInstallOk : Bool
  gitInitOk : Bool
  gitAddOk : Bool
  gitCommitOk : Bool

/-- What one invocation did: exit code, console output in order, and every
mutation performed before the process ended. -/
structure Outcome where
  exitCode : Nat
  logs : List String
  createdDir : Bool := false
  copySource : Option String := none
  copiedFiles : List FileEntry := []
  writtenManifest : Option PkgObj := none
  manifestSpaces : Option Nat := none
  ranInstall : Bool := false
  gitCmds : List String := []

/-! Console messages, chalk styling stripped. -/

def msgCreating (projectName : String) : String :=
  "🚀 Creating React app: " ++ projectName

def msgUsingTemplate (templateName : String) : String :=
  "📋 Using template: " ++ templateName

def msgInvalidName : String :=
  "❌ Invalid project name. Use only letters, numbers, hyphens, and underscores."

def msgDirExists (projectName : String) : String :=
  "❌ Directory " ++ projectName ++ " already exists!"

def msgTemplateNotFound (key folder : String) : String :=
  "❌ Template " ++ key ++ " not found at ../templates/" ++ folder

def msgAvailableTemplates : String :=
  "💡 Available templates: " ++ String.intercalate ", " (templates.map (fun p => p.1))

def msgCopying : String := "📁 Copying template files..."

def msgUpdatedPkg : String := "📦 Updated package.json with project name"

def msgInstalling : String := "📥 Installing dependencies..."

def msgGitStarting : String := "📂 Initializing git repository..."

def msgSuccess (projectName : String) : String :=
  "✅ Project " ++ projectName ++ " created successfully!"

def msgErrorCreating : String := "❌ Error creating project:"

def gitCommitCmd : String := "git commit -m \"Initial commit\""

/-- The success summary block (step 8): `npm install` is suggested only when
`--install` was not passed. -/
def successLogs (projectName : String) (installFlag : Bool) : List String :=
  [msgSuccess projectName, "\n📋 Next steps:", "   cd " ++ projectName]
  ++ (if !installFlag then ["   npm install"] else [])
  ++ ["   npm run dev"]

/-- Steps 6-8: auto-install, git init, success summary. `execSync` throws on a
non-zero child exit; the top-level catch prints the error and exits 1, leaving
all filesystem effects so far in place. -/
def postScaffoldSteps (o : Options) (pa : PromptAnswers) (env : Env)
    (projectName folder : String) (copiedFiles : List FileEntry)
    (wm : Option PkgObj) (sp : Option Nat) (logs : List String) : Outcome :=
  let installRequested := o.install || (!o.yes && pa.install)
  if installRequested && !env.npmInstallOk then
    { exitCode := 1, logs := logs ++ [msgInstalling, msgErrorCreating],
      createdDir := true, copySource := some folder, copiedFiles := copiedFiles,
      writtenManifest := wm, manifestSpaces := sp, ranInstall := true }
  else
    let logsA := if installRequested then logs ++ [msgInstalling] else logs
    let gitRequested := o.git || (!o.yes && pa.git)
    if gitRequested && !env.gitInitOk then
      { exitCode := 1, logs := logsA ++ [msgGitStarting, msgErrorCreating],
        createdDir := true, copySource := some folder, copiedFiles := copiedFiles,
        writtenManifest := wm, manifestSpaces := sp, ranInstall := installRequested,
        gitCmds := ["git init"] }
    else if gitRequested && !env.gitAddOk then
      { exitCode := 1, logs := logsA ++ [msgGitStarting, msgErrorCreating],
        createdDir := true, copySource := some folder, copiedFiles := copiedFiles,
        writtenManifest := wm, manifestSpaces := sp, ranInstall := installRequested,
        gitCmds := ["git init", "git add ."] }
    else if gitRequested && !env.gitCommitOk then
      { exitCode := 1, logs := logsA ++ [msgGitStarting, msgErrorCreating],
        createdDir := true, copySource := some folder, copiedFiles := copiedFiles,
        writtenManifest := wm, manifestSpaces := sp, ranInstall := installRequested,
        gitCmds := ["git init", "git add .", gitCommitCmd] }
    else
      let logsB := if gitRequested then logsA ++ [msgGitStarting] else logsA
      { exitCode := 0, logs := logsB ++ successLogs projectName o.install,
        createdDir := true, copySource := some folder, copiedFiles := copiedFiles,
        writtenManifest := wm, manifestSpaces := sp, ranInstall := installRequested,
        gitCmds := if gitRequested then ["git init", "git add .", gitCommitCmd] else [] }

/-- The whole commander action handler, step by step as in the source.
`positionalName` is the optional positional argument (`none` = absent). -/
def runScaffold (o : Options) (positionalName : Option String)
    (pa : PromptAnswers) (env : Env) : Outcome :=
  -- Step 1: `if (!projectName && !options.yes)` prompt, then `projectName || 'my-app'`
  let projectName0 :=
    if strFalsy positionalName && !o.yes then some pa.projectName else positionalName
  let projectName :=
    match projectName0 with
    | none => "my-app"
    | some s => if s == "" then "my-app" else s
  if !nameRegexMatch projectName then
    { exitCode := 1, logs := [msgInvalidName] }
  else
    -- Step 2: template selection
    let selectedTemplate0 := resolveTemplateFlags o
    let selectedTemplate1 :=
      if (strFalsy selectedTemplate0 || (lookupTemplate (selectedTemplate0.getD "")).isNone)
          && !o.yes
      then some pa.template else selectedTemplate0
    let selectedTemplate :=
      if strFalsy selectedTemplate1 then "javascript" else selectedTemplate1.getD ""
    match lookupTemplate selectedTemplate with
    | none =>
      -- `templateConfig` is `undefined`; `templateConfig.name` throws, caught at top level
      { exitCode := 1, logs := [msgCreating projectName, msgErrorCreating] }
    | some templateConfig =>
      let logs0 := [msgCreating projectName, msgUsingTemplate templateConfig.name]
      -- Step 3: directory check
      if env.targetExists then
        { exitCode := 1, logs := logs0 ++ [msgDirExists projectName] }
      else
        -- Step 4: `fs.ensureDir`, then template existence check, then filtered copy
        if !(env.templateExists templateConfig.folder) then
          { exitCode := 1,
            logs := logs0 ++ [msgTemplateNotFound selectedTemplate templateConfig.folder,
                              msgAvailableTemplates],
            createdDir := true }
        else
          let copiedFiles := scaffoldCopy (env.templateFiles templateConfig.folder)
          let logs1 := logs0 ++ [msgCopying]
          -- Step 5: patch package.json when present, silently skip otherwise
          match env.templatePkgJson templateConfig.folder with
          | some packageJson =>
            postScaffoldSteps o pa env projectName templateConfig.folder copiedFiles
              (some (setField packageJson "name" (Jval.str projectName))) (some 2)
              (logs1 ++ [msgUpdatedPkg])
          | none =>
            postScaffoldSteps o pa env projectName templateConfig.folder copiedFiles
              none none logs1

/-! ## Concrete fixtures for witnesses and counterexamples -/

/-- A fully permissive world: target free, every template folder present with a
small tree and a manifest, all child processes succeed. -/
def envOk : Env :=
  ⟨false, fun _ => true,
   fun _ => [⟨["package.json"], "..."⟩, ⟨["src", "App.jsx"], "code"⟩],
   fun _ => some [("name", Jval.str "react-tailwind-template"), ("version", Jval.str "1.0.0")],
   true, true, true, true⟩

def envDirTaken : Env := { envOk with targetExists := true }

def envInstallBad : Env := { envOk with npmInstallOk := false }

def envGitAddBad : Env := { envOk with gitAddOk := false }

def envNoManifest : Env := { envOk with templatePkgJson := fun _ => none }

/-- `--yes` only: no prompts, no install, no git. -/
def optsYes : Options := ⟨none, false, false, false, true, false, false⟩

/-- `--template typescript --js --yes`: both an explicit flag and a shorthand. -/
def optsBothTemplateFlags : Options := ⟨some "typescript", false, true, false, true, false, false⟩

/-- `--yes --install`. -/
def optsYesInstall : Options := ⟨none, false, false, false, true, true, false⟩

/-- `--yes --git`. -/
def optsYesGit : Options := ⟨none, false, false, false, true, false, true⟩

/-- No flags at all: fully interactive invocation. -/
def optsNoFlags : Options := ⟨none, false, false, false, false, false, false⟩

def paAny : PromptAnswers := ⟨"unused", "unused", false, false⟩

/-- Interactive answers: a name with surrounding whitespace, declining install and git. -/
def paSpacedName : PromptAnswers := ⟨" my-app ", "javascript", false, false⟩

/-- A root-level file whose name contains `.git` as a substring but is not an
excluded directory segment. -/
def dotGitignoreEntry : FileEntry := ⟨[".gitignore"], "node_modules\n"⟩

/-! ## Helper lemmas -/

theorem listContainsSeq_cons (pat : List Char) (c : Char) (rest : List Char)
    (h : listContainsSeq pat rest = true) : listContainsSeq pat (c :: rest) = true := by
  simp [listContainsSeq, h]

theorem listContainsSeq_of_isPre (pat l : List Char)
    (h : pat.isPrefixOf l = true) : listContainsSeq pat l = true := by
  cases l with
  | nil =>
    have h2 : pat = [] := by
      cases pat with
      | nil => rfl
      | cons a as => simp [List.isPrefixOf] at h
    simp [listContainsSeq, h2, List.isEmpty]
  | cons c rest => simp [listContainsSeq, h]

theorem listContainsSeq_of_pre (pat l : List Char)
    (h : pat <+: l) : listContainsSeq pat l = true :=
  listContainsSeq_of_isPre pat l (List.isPrefixOf_iff_prefix.mpr h)

/-- A match inside a list is still a match after extending the list on the right. -/
theorem listContainsSeq_mono_right (pat l t : List Char)
    (h : listContainsSeq pat l = true) : listContainsSeq pat (l ++ t) = true := by
  induction l with
  | nil =>
    simp [listContainsSeq] at h
    have h2 : pat = [] := by
      cases pat with
      | nil => rfl
      | cons a as => simp [List.isEmpty] at h
    subst h2
    exact listContainsSeq_of_pre [] t List.nil_prefix
  | cons c rest ih =>
    simp only [listContainsSeq, Bool.or_eq_true] at h
    cases h with
    | inl hpre =>
      have hp : pat <+: c :: rest := List.isPrefixOf_iff_prefix.mp hpre
      have hp2 : pat <+: (c :: rest) ++ t := hp.trans (List.prefix_append _ _)
      simp only [List.cons_append]
      exact listContainsSeq_of_pre pat _ (by simpa using hp2)
    | inr hrest =>
      simp only [List.cons_append]
      exact listContainsSeq_cons pat c (rest ++ t) (ih hrest)

/-- A match inside a list is still a match after extending the list on the left. -/
theorem listContainsSeq_mono_left (pat m l : List Char)
    (h : listContainsSeq pat l = true) : listContainsSeq pat (m ++ l) = true := by
  induction m with
  | nil => simpa using h
  | cons c rest ih => exact listContainsSeq_cons pat c (rest ++ l) ih

/-- Containment transfers from a list to any extension of it. -/
theorem strContains_of_data_pre (s t pat : String)
    (hpre : s.data <+: t.data) (h : strContains s pat = true) :
    strContains t pat = true := by
  obtain ⟨r, hr⟩ := hpre
  unfold strContains at *
  rw [← hr]
  exact listContainsSeq_mono_right pat.data s.data r h

theorem mem_nonemptyLevels_isPre (l p : List String)
    (h : p ∈ nonemptyLevels l) : p <+: l := by
  induction l generalizing p with
  | nil => simp [nonemptyLevels] at h
  | cons seg rest ih =>
    simp only [nonemptyLevels, List.mem_cons, List.mem_map] at h
    cases h with
    | inl h1 =>
      subst h1
      exact ⟨rest, rfl⟩
    | inr h2 =>
      obtain ⟨q, hq, hqe⟩ := h2
      subst hqe
      obtain ⟨t, ht⟩ := ih q hq
      exact ⟨t, by rw [List.cons_append, ht]⟩

theorem self_mem_nonemptyLevels (l : List String) (h : l ≠ []) :
    l ∈ nonemptyLevels l := by
  induction l with
  | nil => exact absurd rfl h
  | cons seg rest ih =>
    cases rest with
    | nil => simp [nonemptyLevels]
    | cons a as =>
      have hmem := ih (by simp)
      exact List.mem_cons.mpr (Or.inr (List.mem_map.mpr ⟨a :: as, hmem, rfl⟩))

theorem relPath_cons_ne_nil (seg : String) (rest : List String) (h : rest ≠ []) :
    relPath (seg :: rest) = seg ++ "/" ++ relPath rest := by
  cases rest with
  | nil => exact absurd rfl h
  | cons a as => rfl

/-- The relative path of a path-level truncation is a character-prefix of the
relative path of the full path. -/
theorem relPath_data_pre (p q : List String) (h : p <+: q) :
    (relPath p).data <+: (relPath q).data := by
  induction p generalizing q with
  | nil =>
    have hnil : (relPath []).data = [] := rfl
    rw [hnil]
    exact List.nil_prefix
  | cons seg p2 ih =>
    obtain ⟨t, ht⟩ := h
    cases q with
    | nil => simp at ht
    | cons qh q2 =>
      have hseg : seg = qh := by
        have h3 := congrArg (fun l => l.head?) ht
        simpa using h3
      subst hseg
      have hq2 : p2 ++ t = q2 := by
        simpa using congrArg List.tail ht
      cases p2 with
      | nil =>
        cases q2 with
        | nil => simp [relPath]
        | cons a as =>
          rw [relPath_cons_ne_nil seg (a :: as) (by simp)]
          refine ⟨"/".data ++ (relPath (a :: as)).data, ?_⟩
          show (relPath [seg]).data ++ _ = _
          simp [relPath, String.data_append, List.append_assoc]
      | cons b bs =>
        have hq2ne : q2 ≠ [] := by
          intro hq
          rw [hq] at hq2
          simp at hq2
        rw [relPath_cons_ne_nil seg (b :: bs) (by simp),
            relPath_cons_ne_nil seg q2 hq2ne]
        have hpre2 : (b :: bs) <+: q2 := ⟨t, hq2⟩
        obtain ⟨r, hrr⟩ := ih q2 hpre2
        refine ⟨r, ?_⟩
        simp only [String.data_append, List.append_assoc]
        rw [hrr]

/-- If a directory name occurs as a segment of a path, it occurs as a substring
of the relative path string. -/
theorem strContains_of_mem_segment (seg : String) (path : List String)
    (h : seg ∈ path) : strContains (relPath path) seg = true := by
  induction path with
  | nil => simp at h
  | cons x rest ih =>
    rcases List.mem_cons.mp h with h1 | h2
    · subst h1
      cases rest with
      | nil =>
        unfold strContains relPath
        exact listContainsSeq_of_pre _ _ (List.prefix_refl _)
      | cons a as =>
        rw [relPath_cons_ne_nil seg (a :: as) (by simp)]
        unfold strContains
        simp only [String.data_append]
        rw [List.append_assoc]
        exact listContainsSeq_of_pre _ _ (List.prefix_append _ _)
    · cases rest with
      | nil => simp at h2
      | cons a as =>
        rw [relPath_cons_ne_nil x (a :: as) (by simp)]
        unfold strContains at *
        simp only [String.data_append]
        rw [List.append_assoc]
        exact listContainsSeq_mono_left _ _ _ (listContainsSeq_mono_left _ _ _ (ih h2))

/-- The filter verdict on a truncation transfers down: if the full relative path
is clean, so is every level. -/
theorem copyFilter_of_pre (p q : List String) (hpre : p <+: q)
    (h : copyFilter (relPath q) = true) : copyFilter (relPath p) = true := by
  have hdata := relPath_data_pre p q hpre
  unfold copyFilter at *
  simp only [Bool.and_eq_true, Bool.not_eq_true'] at h ⊢
  obtain ⟨⟨h1, h2⟩, h3⟩ := h
  refine ⟨⟨?_, ?_⟩, ?_⟩
  · cases hc : strContains (relPath p) "node_modules" with
    | false => rfl
    | true => rw [strContains_of_data_pre _ _ _ hdata hc] at h1; exact h1
  · cases hc : strContains (relPath p) ".git" with
    | false => rfl
    | true => rw [strContains_of_data_pre _ _ _ hdata hc] at h2; exact h2
  · cases hc : strContains (relPath p) "dist" with
    | false => rfl
    | true => rw [strContains_of_data_pre _ _ _ hdata hc] at h3; exact h3

/-- The per-level walk check is equivalent to checking the whole relative path:
a level's hit is a substring hit of the full path, and conversely the full path
is itself one of the levels. -/
theorem copyIncludes_eq_copyFilter (f : FileEntry) :
    copyIncludes f = copyFilter (relPath f.path) := by
  rw [Bool.eq_iff_iff]
  unfold copyIncludes
  rw [List.all_eq_true]
  constructor
  · intro hall
    cases hp : f.path with
    | nil => decide
    | cons seg rest =>
      have hmem : (seg :: rest) ∈ nonemptyLevels f.path := by
        rw [hp]
        exact self_mem_nonemptyLevels _ (by simp)
      exact hall (seg :: rest) hmem
  · intro hfull p hpm
    exact copyFilter_of_pre p f.path (mem_nonemptyLevels_isPre f.path p hpm) hfull

/-- Membership in the copied tree is exactly the substring-cleanliness of the
file's whole relative path. -/
theorem mem_scaffoldCopy_iff (tpl : List FileEntry) (f : FileEntry) :
    f ∈ scaffoldCopy tpl ↔ f ∈ tpl ∧ copyFilter (relPath f.path) = true := by
  unfold scaffoldCopy
  rw [List.mem_filter, copyIncludes_eq_copyFilter]

/-- A segment-level exclusion hit forces a substring hit, so such files are dropped. -/
theorem copyFilter_false_of_segment (path : List String)
    (h : specSegmentExcluded path = true) : copyFilter (relPath path) = false := by
  unfold specSegmentExcluded at h
  rw [List.any_eq_true] at h
  obtain ⟨seg, hmem, hseg⟩ := h
  have : seg = "node_modules" ∨ seg = ".git" ∨ seg = "dist" := by
    simp [excludedDirNames, List.contains_eq_any_beq] at hseg
    rcases hseg with h1 | h2 | h3
    · exact Or.inl h1
    · exact Or.inr (Or.inl h2)
    · exact Or.inr (Or.inr h3)
  have hcont := strContains_of_mem_segment seg path hmem
  unfold copyFilter
  rcases this with h1 | h2 | h3
  · rw [h1] at hcont; simp [hcont]
  · rw [h2] at hcont; simp [hcont]
  · rw [h3] at hcont; simp [hcont]

/-! ## Lemmas about `setField` -/

theorem setField_cons_ne (a : String × Jval) (rest : PkgObj) (key : String) (v : Jval)
    (ha : (a.1 == key) = false) :
    setField (a :: rest) key v = a :: setField rest key v := by
  unfold setField
  simp only [List.any_cons, ha, Bool.false_or, List.map_cons, List.cons_append]
  split
  · simp [ha]
  · rfl

theorem setField_cons_eq (a : String × Jval) (rest : PkgObj) (key : String) (v : Jval)
    (ha : (a.1 == key) = true) :
    setField (a :: rest) key v
      = (key, v) :: rest.map (fun p => if p.1 == key then (key, v) else p) := by
  unfold setField
  simp [List.any_cons, ha]
  intro h
  exact absurd (eq_of_beq ha) h

theorem jlookup_setField_self (o : PkgObj) (key : String) (v : Jval) :
    jlookup (setField o key v) key = some v := by
  induction o with
  | nil => simp [setField, jlookup, List.find?]
  | cons a rest ih =>
    cases ha : a.1 == key with
    | true =>
      rw [setField_cons_eq a rest key v ha]
      simp [jlookup, List.find?]
    | false =>
      rw [setField_cons_ne a rest key v ha]
      unfold jlookup at *
      rw [List.find?_cons]
      simp only [ha]
      exact ih

theorem find?_map_setFun (rest : PkgObj) (key : String) (v : Jval) (k2 : String)
    (hkk : (key == k2) = false) :
    (rest.map (fun p => if p.1 == key then (key, v) else p)).find? (fun p => p.1 == k2)
      = rest.find? (fun p => p.1 == k2) := by
  induction rest with
  | nil => rfl
  | cons a rest ih =>
    simp only [List.map_cons]
    cases ha : a.1 == key with
    | true =>
      have ha1 : a.1 = key := eq_of_beq ha
      have ha2 : (a.1 == k2) = false := by rw [ha1]; exact hkk
      have hred : (if (true : Bool) = true then (key, v) else a) = (key, v) := if_pos rfl
      rw [hred]
      rw [List.find?_cons_of_neg _ (by simp [hkk]), List.find?_cons_of_neg _ (by simp [ha2])]
      exact ih
    | false =>
      have hred : (if (false : Bool) = true then (key, v) else a) = a := if_neg (by simp)
      rw [hred]
      cases hb : a.1 == k2 with
      | true =>
        rw [List.find?_cons_of_pos _ (by simp [hb]), List.find?_cons_of_pos _ (by simp [hb])]
      | false =>
        rw [List.find?_cons_of_neg _ (by simp [hb]), List.find?_cons_of_neg _ (by simp [hb])]
        exact ih

theorem jlookup_setField_other (o : PkgObj) (key : String) (v : Jval) (k2 : String)
    (hne : k2 ≠ key) : jlookup (setField o key v) k2 = jlookup o k2 := by
  have hkk : (key == k2) = false := beq_eq_false_iff_ne.mpr (fun h => hne h.symm)
  induction o with
  | nil => simp [setField, jlookup, List.find?, hkk]
  | cons a rest ih =>
    cases ha : a.1 == key with
    | true =>
      have ha1 : a.1 = key := eq_of_beq ha
      have ha2 : (a.1 == k2) = false := by rw [ha1]; exact hkk
      rw [setField_cons_eq a rest key v ha]
      unfold jlookup
      rw [List.find?_cons_of_neg _ (by simp [hkk]), List.find?_cons_of_neg _ (by simp [ha2])]
      rw [find?_map_setFun rest key v k2 hkk]
    | false =>
      rw [setField_cons_ne a rest key v ha]
      unfold jlookup at *
      cases hb : a.1 == k2 with
      | true =>
        rw [List.find?_cons_of_pos _ (by simp [hb]), List.find?_cons_of_pos _ (by simp [hb])]
      | false =>
        rw [List.find?_cons_of_neg _ (by simp [hb]), List.find?_cons_of_neg _ (by simp [hb])]
        exact ih

/-! ## Evaluation helpers for the catalog and the name check -/

theorem lookupTemplate_javascript :
    lookupTemplate "javascript" =
      some ⟨"JavaScript (JSX)",
            "React with JavaScript, comprehensive UI components, and educational documentation",
            "template-jsx"⟩ := rfl

theorem name_ne_empty (n : String) (h : nameRegexMatch n = true) : (n == "") = false := by
  unfold nameRegexMatch at h
  cases hc : n == "" with
  | false => rfl
  | true => rw [hc] at h; simp at h

theorem isNameChar_iff (c : Char) :
    isNameChar c = true ↔
      ('a' ≤ c ∧ c ≤ 'z') ∨ ('A' ≤ c ∧ c ≤ 'Z') ∨ ('0' ≤ c ∧ c ≤ '9')
        ∨ c = '-' ∨ c = '_' := by
  simp only [isNameChar, Bool.or_eq_true, Bool.and_eq_true, decide_eq_true_eq, beq_iff_eq]
  tauto

theorem nameRegexMatch_iff (s : String) :
    nameRegexMatch s = true ↔ s ≠ "" ∧ ∀ c ∈ s.data, isNameChar c = true := by
  simp [nameRegexMatch, Bool.and_eq_true, Bool.not_eq_true', List.all_eq_true]

/-- A name that is rejected by the regex and is not JS-falsy makes the handler
print the invalid-name error and exit 1 before touching the filesystem. -/
theorem invalid_name_outcome (n : String) (o : Options) (pa : PromptAnswers) (env : Env)
    (hne : n ≠ "") (hbad : nameRegexMatch n = false) :
    runScaffold o (some n) pa env = { exitCode := 1, logs := [msgInvalidName] } := by
  have hne2 : (n == "") = false := beq_eq_false_iff_ne.mpr hne
  simp [runScaffold, strFalsy, hne2, hbad]


/-! ## The claims -/

/-- C1 counterexample: the claim's per-segment reading of the exclusion fails on
the code. A root-level `.gitignore` file has no excluded directory segment in
its path, yet it does not survive the copy, because the filter tests substring
containment and `.gitignore` contains `.git`. -/
theorem segment_equality_exclusion_refuted :
    dotGitignoreEntry ∈ [dotGitignoreEntry] ∧
    specSegmentExcluded dotGitignoreEntry.path = false ∧
    dotGitignoreEntry ∉ scaffoldCopy [dotGitignoreEntry] := by decide

/-- C1 (amended): after a successful scaffold, every template file whose
relative path contains none of the excluded names as a substring is present in
the copy with identical contents, and files under an excluded directory segment
do not appear; the exclusion is substring containment over the relative path,
applied at every level of the walk. -/
theorem copy_clean_kept_segment_excluded_dropped (tpl : List FileEntry) (f : FileEntry)
    (hmem : f ∈ tpl) :
    (copyFilter (relPath f.path) = true → f ∈ scaffoldCopy tpl) ∧
    (specSegmentExcluded f.path = true → f ∉ scaffoldCopy tpl) := by
  constructor
  · intro hclean
    exact (mem_scaffoldCopy_iff tpl f).mpr ⟨hmem, hclean⟩
  · intro hexcl hin
    have h2 := ((mem_scaffoldCopy_iff tpl f).mp hin).2
    rw [copyFilter_false_of_segment f.path hexcl] at h2
    exact Bool.false_ne_true h2

theorem copy_clean_kept_segment_excluded_dropped_witness :
    (⟨["src", "App.jsx"], "code"⟩ : FileEntry)
        ∈ scaffoldCopy [⟨["src", "App.jsx"], "code"⟩, ⟨["node_modules", "a.js"], "x"⟩] ∧
    (⟨["node_modules", "a.js"], "x"⟩ : FileEntry)
        ∉ scaffoldCopy [⟨["src", "App.jsx"], "code"⟩, ⟨["node_modules", "a.js"], "x"⟩] :=
  ⟨(copy_clean_kept_segment_excluded_dropped _ _ (by decide)).1 (by decide),
   (copy_clean_kept_segment_excluded_dropped _ _ (by decide)).2 (by decide)⟩

/-- C2 counterexample: with both `--template typescript` and `--js` supplied,
the run copies from the JavaScript template's folder, not the TypeScript one:
the shorthand flag, not the explicit flag, decides. -/
theorem explicit_template_flag_wins_refuted :
    (runScaffold optsBothTemplateFlags (some "demo") paAny envOk).copySource
        = some "template-jsx" ∧
    (lookupTemplate "typescript").map TemplateInfo.folder = some "template-tsx" ∧
    (runScaffold optsBothTemplateFlags (some "demo") paAny envOk).copySource
        ≠ some "template-tsx" := by decide

/-- C2 (amended): a supplied shorthand flag overrides the explicit `--template`
flag; with `--js` set (and `--typescript` unset), the scaffold copies from the
JavaScript template's source directory whatever `--template` says. -/
theorem shorthand_overrides_template_flag (t : Option String) (n : String)
    (pa : PromptAnswers) (env : Env)
    (hname : nameRegexMatch n = true)
    (hdir : env.targetExists = false)
    (hex : env.templateExists "template-jsx" = true) :
    (runScaffold ⟨t, false, true, false, true, false, false⟩ (some n) pa env).copySource
        = some "template-jsx" ∧
    (runScaffold ⟨t, false, true, false, true, false, false⟩ (some n) pa env).copiedFiles
        = scaffoldCopy (env.templateFiles "template-jsx") := by
  have hne : (n == "") = false := name_ne_empty n hname
  simp only [runScaffold, strFalsy, resolveTemplateFlags, hne, hname, hdir, hex,
    lookupTemplate_javascript, postScaffoldSteps,
    show (("javascript" : String) == "") = false from rfl]
  simp [hne, hname, hdir, hex, lookupTemplate_javascript]
  cases env.templatePkgJson "template-jsx" <;> simp

theorem shorthand_overrides_template_flag_witness :
    (runScaffold ⟨some "typescript", false, true, false, true, false, false⟩
        (some "demo") paAny envOk).copySource = some "template-jsx" ∧
    (runScaffold ⟨some "typescript", false, true, false, true, false, false⟩
        (some "demo") paAny envOk).copiedFiles
      = scaffoldCopy (envOk.templateFiles "template-jsx") :=
  shorthand_overrides_template_flag (some "typescript") "demo" paAny envOk
    (by decide) rfl rfl

/-- C3 counterexample: with `--install` and an install command that exits
non-zero, the process exits 1 (the top-level catch), not 0, and what it prints
is the fatal error line, not a warning in a success summary. -/
theorem install_failure_nonfatal_refuted :
    (runScaffold optsYesInstall (some "demo") paAny envInstallBad).exitCode = 1 ∧
    msgErrorCreating ∈ (runScaffold optsYesInstall (some "demo") paAny envInstallBad).logs := by
  decide

/-- C3 (amended): when dependency installation is requested and the install
command exits non-zero, `execSync` throws, the top-level catch prints the fatal
error and the process exits 1; the already-created directory, the copied files
and the patched manifest remain in place (no rollback). -/
theorem install_failure_fatal_artifacts_remain (n : String) (pa : PromptAnswers)
    (env : Env) (pkg : PkgObj)
    (hname : nameRegexMatch n = true)
    (hdir : env.targetExists = false)
    (hex : env.templateExists "template-jsx" = true)
    (hpkg : env.templatePkgJson "template-jsx" = some pkg)
    (hnpm : env.npmInstallOk = false) :
    (runScaffold optsYesInstall (some n) pa env).exitCode = 1 ∧
    (runScaffold optsYesInstall (some n) pa env).ranInstall = true ∧
    (runScaffold optsYesInstall (some n) pa env).createdDir = true ∧
    (runScaffold optsYesInstall (some n) pa env).copiedFiles
        = scaffoldCopy (env.templateFiles "template-jsx") ∧
    (runScaffold optsYesInstall (some n) pa env).writtenManifest
        = some (setField pkg "name" (Jval.str n)) ∧
    msgErrorCreating ∈ (runScaffold optsYesInstall (some n) pa env).logs := by
  have hne : (n == "") = false := name_ne_empty n hname
  simp [runScaffold, optsYesInstall, strFalsy, resolveTemplateFlags, hne, hname, hdir,
    hex, hpkg, hnpm, lookupTemplate_javascript, postScaffoldSteps]

theorem install_failure_fatal_artifacts_remain_witness :
    (runScaffold optsYesInstall (some "demo") paAny envInstallBad).exitCode = 1 ∧
    (runScaffold optsYesInstall (some "demo") paAny envInstallBad).ranInstall = true ∧
    (runScaffold optsYesInstall (some "demo") paAny envInstallBad).createdDir = true := by
  have h := install_failure_fatal_artifacts_remain "demo" paAny envInstallBad
    [("name", Jval.str "react-tailwind-template"), ("version", Jval.str "1.0.0")]
    (by decide) rfl rfl rfl rfl
  exact ⟨h.1, h.2.1, h.2.2.1⟩

/-- C4 (confirmed): with the target directory already existing, the run always
exits 1 and performs no mutation at all: no directory creation, no copied file,
no manifest write, no install, no git command. -/
theorem no_overwrite_existing_dir (o : Options) (posName : Option String)
    (pa : PromptAnswers) (env : Env) (h : env.targetExists = true) :
    (runScaffold o posName pa env).exitCode = 1 ∧
    (runScaffold o posName pa env).createdDir = false ∧
    (runScaffold o posName pa env).copiedFiles = [] ∧
    (runScaffold o posName pa env).writtenManifest = none ∧
    (runScaffold o posName pa env).ranInstall = false ∧
    (runScaffold o posName pa env).gitCmds = [] := by
  simp only [runScaffold, h, if_true]
  split <;> split <;> (try split) <;> simp

theorem no_overwrite_existing_dir_witness :
    (runScaffold optsYes (some "demo") paAny envDirTaken).exitCode = 1 ∧
    (runScaffold optsYes (some "demo") paAny envDirTaken).createdDir = false ∧
    (runScaffold optsYes (some "demo") paAny envDirTaken).copiedFiles = [] ∧
    (runScaffold optsYes (some "demo") paAny envDirTaken).writtenManifest = none ∧
    (runScaffold optsYes (some "demo") paAny envDirTaken).ranInstall = false ∧
    (runScaffold optsYes (some "demo") paAny envDirTaken).gitCmds = [] :=
  no_overwrite_existing_dir optsYes (some "demo") paAny envDirTaken rfl

/-- C5 counterexample: with git initialization requested and `git add .` exiting
non-zero, the commit command is never invoked and the process exits 1: the
failure is fatal and later git steps are not attempted. -/
theorem git_steps_continue_refuted :
    (runScaffold optsYesGit (some "demo") paAny envGitAddBad).exitCode = 1 ∧
    (runScaffold optsYesGit (some "demo") paAny envGitAddBad).gitCmds
        = ["git init", "git add ."] ∧
    gitCommitCmd ∉ (runScaffold optsYesGit (some "demo") paAny envGitAddBad).gitCmds := by
  decide

/-- C5 (amended): the three git commands run in sequence in the target
directory, but each only if all previous ones succeeded; the first failing
command aborts the scaffold through the top-level catch with exit code 1, and
the remaining git commands are not attempted (the created files remain). -/
theorem git_step_failure_fatal_stops_sequence (n : String) (pa : PromptAnswers)
    (env : Env)
    (hname : nameRegexMatch n = true)
    (hdir : env.targetExists = false)
    (hex : env.templateExists "template-jsx" = true)
    (hinit : env.gitInitOk = true)
    (hadd : env.gitAddOk = false) :
    (runScaffold optsYesGit (some n) pa env).gitCmds = ["git init", "git add ."] ∧
    (runScaffold optsYesGit (some n) pa env).exitCode = 1 ∧
    (runScaffold optsYesGit (some n) pa env).createdDir = true ∧
    msgErrorCreating ∈ (runScaffold optsYesGit (some n) pa env).logs := by
  have hne : (n == "") = false := name_ne_empty n hname
  cases hpkg : env.templatePkgJson "template-jsx" with
  | none =>
    simp [runScaffold, optsYesGit, strFalsy, resolveTemplateFlags, hne, hname, hdir,
      hex, hpkg, hinit, hadd, lookupTemplate_javascript, postScaffoldSteps]
  | some pkg =>
    simp [runScaffold, optsYesGit, strFalsy, resolveTemplateFlags, hne, hname, hdir,
      hex, hpkg, hinit, hadd, lookupTemplate_javascript, postScaffoldSteps]

theorem git_step_failure_fatal_stops_sequence_witness :
    (runScaffold optsYesGit (some "demo") paAny envGitAddBad).gitCmds
        = ["git init", "git add ."] ∧
    (runScaffold optsYesGit (some "demo") paAny envGitAddBad).exitCode = 1 := by
  have h := git_step_failure_fatal_stops_sequence "demo" paAny envGitAddBad
    (by decide) rfl rfl rfl rfl
  exact ⟨h.1, h.2.1⟩

/-- C6 (confirmed): after a successful scaffold the written manifest is the
template's manifest with its `name` field set to exactly the requested project
name; every other top-level field is unchanged, and the file is written with
2-space indentation. -/
theorem manifest_patch_correct (n k : String) (cfg : TemplateInfo) (pkg : PkgObj)
    (pa : PromptAnswers) (env : Env)
    (hname : nameRegexMatch n = true)
    (hlk : lookupTemplate k = some cfg)
    (hdir : env.targetExists = false)
    (hex : env.templateExists cfg.folder = true)
    (hpkg : env.templatePkgJson cfg.folder = some pkg) :
    (runScaffold ⟨some k, false, false, false, true, false, false⟩ (some n) pa env).exitCode
        = 0 ∧
    (runScaffold ⟨some k, false, false, false, true, false, false⟩ (some n) pa env).writtenManifest
        = some (setField pkg "name" (Jval.str n)) ∧
    (runScaffold ⟨some k, false, false, false, true, false, false⟩ (some n) pa env).manifestSpaces
        = some 2 ∧
    jlookup (setField pkg "name" (Jval.str n)) "name" = some (Jval.str n) ∧
    (∀ k2, k2 ≠ "name" → jlookup (setField pkg "name" (Jval.str n)) k2 = jlookup pkg k2) := by
  have hne : (n == "") = false := name_ne_empty n hname
  have hkne : (k == "") = false := by
    cases hc : k == "" with
    | false => rfl
    | true =>
      have hk : k = "" := eq_of_beq hc
      rw [hk, show lookupTemplate "" = none from rfl] at hlk
      exact Option.noConfusion hlk
  refine ⟨?_, ?_, ?_, jlookup_setField_self pkg "name" (Jval.str n),
    fun k2 h2 => jlookup_setField_other pkg "name" (Jval.str n) k2 h2⟩ <;>
    simp [runScaffold, strFalsy, resolveTemplateFlags, hne, hname, hkne, hlk, hdir,
      hex, hpkg, postScaffoldSteps]

theorem manifest_patch_correct_witness :
    (runScaffold ⟨some "typescript", false, false, false, true, false, false⟩
        (some "demo") paAny envOk).exitCode = 0 ∧
    jlookup (setField [("name", Jval.str "react-tailwind-template"),
        ("version", Jval.str "1.0.0")] "name" (Jval.str "demo")) "name"
      = some (Jval.str "demo") ∧
    jlookup (setField [("name", Jval.str "react-tailwind-template"),
        ("version", Jval.str "1.0.0")] "name" (Jval.str "demo")) "version"
      = jlookup [("name", Jval.str "react-tailwind-template"),
        ("version", Jval.str "1.0.0")] "version" := by
  have h := manifest_patch_correct "demo" "typescript"
    ⟨"TypeScript (TSX)",
     "React with TypeScript, type safety, comprehensive UI components, and educational documentation",
     "template-tsx"⟩
    [("name", Jval.str "react-tailwind-template"), ("version", Jval.str "1.0.0")]
    paAny envOk (by decide) rfl rfl rfl rfl
  exact ⟨h.1, h.2.2.2.1, h.2.2.2.2 "version" (by decide)⟩

/-- C7 counterexample: an empty positional name supplied non-interactively
(`--yes`) is not fatal: it is silently replaced by the default `my-app` and the
scaffold succeeds with exit code 0. -/
theorem empty_positional_name_fatal_refuted :
    (runScaffold optsYes (some "") paAny envOk).exitCode = 0 ∧
    (runScaffold optsYes (some "") paAny envOk).logs.head?
        = some (msgCreating "my-app") := by decide

/-- C7 (amended): name validation accepts exactly the strings matching
`^[A-Za-z0-9_-]+$`; a non-empty non-interactively supplied name failing the
check is fatal — the error is printed and the process exits 1 before any
filesystem mutation — but an empty positional name is silently coerced to the
default `my-app` instead of being rejected. -/
theorem name_validation_exact_and_nonempty_invalid_fatal (s n : String) (o : Options)
    (pa : PromptAnswers) (env : Env)
    (hne : n ≠ "") (hbad : nameRegexMatch n = false) :
    (nameRegexMatch s = true ↔
      s ≠ "" ∧ ∀ c ∈ s.data,
        ('a' ≤ c ∧ c ≤ 'z') ∨ ('A' ≤ c ∧ c ≤ 'Z') ∨ ('0' ≤ c ∧ c ≤ '9')
          ∨ c = '-' ∨ c = '_') ∧
    (runScaffold o (some n) pa env).exitCode = 1 ∧
    (runScaffold o (some n) pa env).logs = [msgInvalidName] ∧
    (runScaffold o (some n) pa env).createdDir = false ∧
    (runScaffold o (some n) pa env).copiedFiles = [] ∧
    (runScaffold o (some n) pa env).writtenManifest = none ∧
    (runScaffold o (some n) pa env).ranInstall = false ∧
    (runScaffold o (some n) pa env).gitCmds = [] := by
  have hrun := invalid_name_outcome n o pa env hne hbad
  refine ⟨?_, ?_⟩
  · rw [nameRegexMatch_iff]
    constructor
    · rintro ⟨h1, h2⟩
      exact ⟨h1, fun c hc => (isNameChar_iff c).mp (h2 c hc)⟩
    · rintro ⟨h1, h2⟩
      exact ⟨h1, fun c hc => (isNameChar_iff c).mpr (h2 c hc)⟩
  · rw [hrun]
    exact ⟨rfl, rfl, rfl, rfl, rfl, rfl, rfl⟩

theorem name_validation_exact_and_nonempty_invalid_fatal_witness :
    nameRegexMatch "demo-app" = true ∧
    (runScaffold optsYes (some "my app") paAny envOk).exitCode = 1 ∧
    (runScaffold optsYes (some "my app") paAny envOk).createdDir = false :=
  ⟨(name_validation_exact_and_nonempty_invalid_fatal "demo-app" "my app" optsYes paAny
      envOk (by decide) (by decide)).1.mpr (by decide),
   (name_validation_exact_and_nonempty_invalid_fatal "demo-app" "my app" optsYes paAny
      envOk (by decide) (by decide)).2.1,
   (name_validation_exact_and_nonempty_invalid_fatal "demo-app" "my app" optsYes paAny
      envOk (by decide) (by decide)).2.2.2.1⟩

/-- C8 counterexample: with no `package.json` in the template, the patch step is
skipped and the scaffold succeeds, but no warning is printed: no line of the
output mentions `package.json` at all. -/
theorem missing_manifest_warning_refuted :
    (runScaffold optsYes (some "demo") paAny envNoManifest).exitCode = 0 ∧
    (runScaffold optsYes (some "demo") paAny envNoManifest).writtenManifest = none ∧
    (runScaffold optsYes (some "demo") paAny envNoManifest).logs.all
        (fun m => !(strContains m "package.json")) = true :=
  ⟨rfl, rfl, by decide⟩

/-- C8 (amended): when no `package.json` exists after materialization, the
patch step is skipped silently — the output is exactly the standard message
sequence, with no warning — and the scaffold still completes with exit code 0. -/
theorem missing_manifest_silent_skip (n : String) (pa : PromptAnswers) (env : Env)
    (hname : nameRegexMatch n = true)
    (hdir : env.targetExists = false)
    (hex : env.templateExists "template-jsx" = true)
    (hpkg : env.templatePkgJson "template-jsx" = none) :
    (runScaffold optsYes (some n) pa env).exitCode = 0 ∧
    (runScaffold optsYes (some n) pa env).writtenManifest = none ∧
    (runScaffold optsYes (some n) pa env).logs
        = [msgCreating n, msgUsingTemplate "JavaScript (JSX)", msgCopying]
          ++ successLogs n false := by
  have hne : (n == "") = false := name_ne_empty n hname
  simp [runScaffold, optsYes, strFalsy, resolveTemplateFlags, hne, hname, hdir,
    hex, hpkg, lookupTemplate_javascript, postScaffoldSteps]

theorem missing_manifest_silent_skip_witness :
    (runScaffold optsYes (some "demo") paAny envNoManifest).exitCode = 0 ∧
    (runScaffold optsYes (some "demo") paAny envNoManifest).writtenManifest = none := by
  have h := missing_manifest_silent_skip "demo" paAny envNoManifest (by decide) rfl rfl rfl
  exact ⟨h.1, h.2.1⟩

/-- C9 (confirmed): a template path is copied iff its whole relative path
contains none of the substrings `node_modules`, `.git` and `dist`: the filter
is substring containment over the relative path, not per-segment name
equality, so a root-level `.gitignore` or a `distribution` directory is
excluded. -/
theorem copy_filter_is_substring_containment (tpl : List FileEntry) (f : FileEntry)
    (hmem : f ∈ tpl) :
    f ∈ scaffoldCopy tpl ↔
      strContains (relPath f.path) "node_modules" = false ∧
      strContains (relPath f.path) ".git" = false ∧
      strContains (relPath f.path) "dist" = false := by
  rw [mem_scaffoldCopy_iff]
  unfold copyFilter
  constructor
  · rintro ⟨-, h⟩
    simp only [Bool.and_eq_true, Bool.not_eq_true'] at h
    exact ⟨h.1.1, h.1.2, h.2⟩
  · rintro ⟨h1, h2, h3⟩
    refine ⟨hmem, ?_⟩
    simp [h1, h2, h3]

theorem copy_filter_is_substring_containment_witness :
    (⟨[".gitignore"], "x"⟩ : FileEntry)
      ∉ scaffoldCopy [⟨[".gitignore"], "x"⟩, ⟨["distribution", "a.js"], "y"⟩] ∧
    (⟨["distribution", "a.js"], "y"⟩ : FileEntry)
      ∉ scaffoldCopy [⟨[".gitignore"], "x"⟩, ⟨["distribution", "a.js"], "y"⟩] := by
  constructor
  · intro hin
    have h := (copy_filter_is_substring_containment _ _ (by decide)).mp hin
    revert h
    decide
  · intro hin
    have h := (copy_filter_is_substring_containment _ _ (by decide)).mp hin
    revert h
    decide

/-- C10 (confirmed): an interactively entered name whose trimmed form matches
the regex but which carries surrounding whitespace passes the prompt's
validation (which tests the trimmed input), then fails the later regex check on
the untrimmed value, and the process exits 1 without re-prompting and without
touching the filesystem. -/
theorem untrimmed_name_fatal_after_prompt (o : Options) (pa : PromptAnswers) (env : Env)
    (hyes : o.yes = false)
    (htrim : nameRegexMatch (jsTrim pa.projectName) = true)
    (hraw : nameRegexMatch pa.projectName = false) :
    promptValidate pa.projectName = true ∧
    (runScaffold o none pa env).exitCode = 1 ∧
    (runScaffold o none pa env).logs = [msgInvalidName] ∧
    (runScaffold o none pa env).createdDir = false ∧
    (runScaffold o none pa env).copiedFiles = [] ∧
    (runScaffold o none pa env).writtenManifest = none := by
  have htne : (jsTrim pa.projectName == "") = false := name_ne_empty _ htrim
  have hvalid : promptValidate pa.projectName = true := by
    unfold promptValidate
    simp [htne, htrim]
  have hpne : (pa.projectName == "") = false := by
    cases hc : pa.projectName == "" with
    | false => rfl
    | true =>
      have hp : pa.projectName = "" := eq_of_beq hc
      rw [hp, show jsTrim "" = "" from rfl] at htrim
      exact absurd htrim (by decide)
  have hrun : runScaffold o none pa env = { exitCode := 1, logs := [msgInvalidName] } := by
    simp [runScaffold, strFalsy, hyes, hpne, hraw]
  rw [hrun]
  exact ⟨hvalid, rfl, rfl, rfl, rfl, rfl⟩

theorem untrimmed_name_fatal_after_prompt_witness :
    promptValidate " my-app " = true ∧
    (runScaffold optsNoFlags none paSpacedName envOk).exitCode = 1 ∧
    (runScaffold optsNoFlags none paSpacedName envOk).createdDir = false := by
  have h := untrimmed_name_fatal_after_prompt optsNoFlags paSpacedName envOk rfl
    (by decide) (by decide)
  exact ⟨h.1, h.2.1, h.2.2.2.1⟩

end CreateApp
